import Mathlib

/-!
Verification of the proxy-manager core against its specification.

The Python source is shallowly embedded: pure functions become Lean
functions, stateful code becomes explicit state passing, timestamps and
latencies become rationals (milliseconds / seconds since the epoch), and
external collaborators (the HTTP transport, the regex engine, the random
number generator, the proxy-issuing endpoint) become oracle parameters.
-/

namespace ProxyManager

/-! ## Data model

`Proxy` mirrors the SQLModel `Proxy` in
`backend/proxy_manager/src/proxy_manager/models.py`: identifier, address,
protocol, optional credentials, optional latency (milliseconds), optional
`last_checked` / `last_used` timestamps (seconds), working flag and
failure counter. -/

structure Proxy where
  id : Nat
  ip : String := ""
  port : Nat := 0
  protocol : String := "http"
  username : Option String := none
  password : Option String := none
  latency : Option ℚ := none
  last_checked : Option ℚ := none
  is_working : Bool := false
  fail_count : Nat := 0
  last_used : Option ℚ := none
deriving DecidableEq, Repr

/-! ## Health Scorer

`calculate_health_score` embeds `Proxy.calculate_health_score` from
`backend/proxy_manager/src/proxy_manager/models.py` (lines 73-143).  The
Python code reads `datetime.now()` for the recency factor; the current
time is passed explicitly as `now` (seconds).  The running float `score`
is modelled as a rational; every addend is integral so float arithmetic
is exact. -/

def calculate_health_score (now : ℚ) (p : Proxy) : ℚ :=
  -- Factor 1: working status (40 points); not working returns 0.0 at once
  if p.is_working then
    let score : ℚ := 0 + 40
    -- Factor 2: latency (30 points)
    let score := score +
      (match p.latency with
       | some l =>
         if l < 100 then (30 : ℚ)
         else if l < 300 then 20
         else if l < 500 then 10
         else 5
       | none => 15)
    -- Factor 3: failure count (20 points)
    let score := score +
      (if p.fail_count = 0 then (20 : ℚ)
       else if p.fail_count ≤ 2 then 15
       else if p.fail_count ≤ 5 then 10
       else 5)
    -- Factor 4: recency of health check (10 points)
    let score := score +
      (match p.last_checked with
       | some t =>
         let hours := (now - t) / 3600
         if hours < 1 then (10 : ℚ)
         else if hours < 24 then 7
         else if hours < 168 then 5
         else 2
       | none => 1)
    min score 100
  else 0

/-! Spec-side restatement of the scoring rule, written from the words of
the claim: the score of a non-working proxy is exactly 0, otherwise the
sum of 40 plus the three tier contributions, capped at 100. -/

/-- Latency tier from the claim: <100ms: 30; <300ms: 20; <500ms: 10;
at least 500ms: 5; no latency: 15. -/
def latencyTier : Option ℚ → ℚ
  | some l => if l < 100 then 30 else if l < 300 then 20 else if l < 500 then 10 else 5
  | none => 15

/-- Fail-count tier from the claim: 0: 20; 1-2: 15; 3-5: 10; more than 5: 5. -/
def failCountTier (fc : Nat) : ℚ :=
  if fc = 0 then 20
  else if 1 ≤ fc ∧ fc ≤ 2 then 15
  else if 3 ≤ fc ∧ fc ≤ 5 then 10
  else 5

/-- Check-recency tier from the claim: <1h: 10; <24h: 7; <7d: 5; older: 2;
never checked: 1 (times in seconds). -/
def recencyTier (now : ℚ) : Option ℚ → ℚ
  | some t =>
    if now - t < 3600 then 10
    else if now - t < 24 * 3600 then 7
    else if now - t < 168 * 3600 then 5
    else 2
  | none => 1

/-- The health score as the claim states it. -/
def claimHealthScore (now : ℚ) (p : Proxy) : ℚ :=
  if p.is_working then
    min (40 + latencyTier p.latency + failCountTier p.fail_count + recencyTier now p.last_checked) 100
  else 0

lemma failCountTier_eq (fc : Nat) :
    (if fc = 0 then (20 : ℚ) else if fc ≤ 2 then 15 else if fc ≤ 5 then 10 else 5) =
      failCountTier fc := by
  unfold failCountTier
  split_ifs <;> first | rfl | omega

lemma recencyTier_eq (now t : ℚ) :
    (if (now - t) / 3600 < 1 then (10 : ℚ)
     else if (now - t) / 3600 < 24 then 7
     else if (now - t) / 3600 < 168 then 5
     else 2) = recencyTier now (some t) := by
  unfold recencyTier
  have h1 : (now - t) / 3600 < 1 ↔ now - t < 3600 := by
    rw [div_lt_iff₀ (by norm_num : (0 : ℚ) < 3600)]; norm_num
  have h2 : (now - t) / 3600 < 24 ↔ now - t < 24 * 3600 := by
    rw [div_lt_iff₀ (by norm_num : (0 : ℚ) < 3600)]
  have h3 : (now - t) / 3600 < 168 ↔ now - t < 168 * 3600 := by
    rw [div_lt_iff₀ (by norm_num : (0 : ℚ) < 3600)]
  simp only [h1, h2, h3]

/-- C4: the implemented health score is exactly 0 for a non-working proxy
and otherwise the capped sum of the working, latency, fail-count and
recency tiers exactly as the claim enumerates them. -/
theorem health_score_matches_claim (now : ℚ) (p : Proxy) :
    calculate_health_score now p = claimHealthScore now p := by
  unfold calculate_health_score claimHealthScore
  rcases p with ⟨id, ip, port, protocol, u, pw, lat, lc, works, fc, lu⟩
  dsimp only
  cases works
  · rfl
  · rcases lc with _ | t
    · rw [show recencyTier now none = 1 from rfl, ← failCountTier_eq fc]
      cases lat <;> · dsimp only [latencyTier]; ring_nf
    · rw [← recencyTier_eq now t, ← failCountTier_eq fc]
      cases lat <;> · dsimp only [latencyTier]; ring_nf

/-! ## Blacklist Cache

Embedding of `BlacklistCache` from
`backend/mitm_forwarder/src/mitm_forwarder/blacklist_cache.py`.

A blacklist rule is a dict with a `pattern` string (a missing pattern is
modelled as the empty string, which Python's truthiness test also
skips).  A compiled regex is modelled as the pair of its source string
(`re.Pattern.pattern`) and its `search` behaviour, an opaque url
predicate; `re.compile` becomes an oracle `String → Option (String →
Bool)`, `none` standing for `re.error`. -/

structure BlacklistRule where
  id : Nat
  pattern : String
deriving DecidableEq, Repr

/-- A compiled pattern: the original pattern string together with the
`search` predicate produced by the regex engine. -/
def Compiled : Type := String × (String → Bool)

/-- `BlacklistCache._compile_patterns`: compile each rule's pattern,
skipping rules with a missing/empty pattern and rules whose pattern
fails to compile (logged, dropped). -/
def _compile_patterns (compile : String → Option (String → Bool)) :
    List BlacklistRule → List Compiled
  | [] => []
  | rule :: rest =>
    if rule.pattern = "" then _compile_patterns compile rest
    else
      match compile rule.pattern with
      | some m => (rule.pattern, m) :: _compile_patterns compile rest
      | none => _compile_patterns compile rest

/-- The cache's mutable state: compiled patterns, the raw rule dicts
(`_pattern_data`) and the time of the last successful refresh. -/
structure CacheState where
  patterns : List Compiled
  pattern_data : List BlacklistRule
  last_refresh : ℚ

/-- Initial cache state from `BlacklistCache.__init__`. -/
def initCache : CacheState := { patterns := [], pattern_data := [], last_refresh := 0 }

/-- `BlacklistCache.refresh`: fetch the rules (the fetch outcome — a rule
list or an exception — is passed in), and only when the fetch succeeded
with a non-empty list swap in the newly compiled snapshot and advance the
refresh timestamp; an empty list or an exception is logged and leaves the
state untouched.  The Python body wraps everything in `try/except
Exception`, so `refresh` never raises: accordingly the embedding is a
total function into `CacheState`. -/
def refresh (compile : String → Option (String → Bool)) (st : CacheState)
    (fetched : Except String (List BlacklistRule)) (now : ℚ) : CacheState :=
  match fetched with
  | .error _ => st
  | .ok rules =>
    if rules.isEmpty then st
    else
      { patterns := _compile_patterns compile rules
        pattern_data := rules
        last_refresh := now }

/-- The scan loop of `BlacklistCache.is_blacklisted`: walk the compiled
patterns with index `i`; on the first match return
`pattern_data[i].pattern` when `i < len(pattern_data)` (walking the data
list in lockstep realises the indexing) and otherwise the compiled
pattern's own source string. -/
def scanPatterns : List Compiled → List BlacklistRule → String → Bool × Option String
  | [], _, _ => (false, none)
  | c :: cs, data, url =>
    if c.2 url then
      match data.head? with
      | some rule => (true, some rule.pattern)
      | none => (true, some c.1)
    else scanPatterns cs data.tail url

/-- `BlacklistCache.is_blacklisted`: an empty (Python-falsy) url is never
blacklisted; otherwise scan the snapshot. -/
def is_blacklisted (st : CacheState) (url : String) : Bool × Option String :=
  if url = "" then (false, none)
  else scanPatterns st.patterns st.pattern_data url

/-- `BlacklistCache.needs_refresh`: elapsed time since the last refresh
reaches the configured TTL. -/
def needs_refresh (ttl : ℚ) (st : CacheState) (now : ℚ) : Bool :=
  decide (now - st.last_refresh ≥ ttl)

/-! ### A concrete regex engine for concrete inputs

For closed evaluations the `compile` oracle is instantiated with a model
of Python `re` restricted to the pattern strings appearing below:
* a pattern made only of literal characters compiles, and its `search`
  finds the literal anywhere in the url (losslessly, since the urls used
  are lowercase and the patterns carry no metacharacters, matching
  `re.IGNORECASE` compilation);
* the pattern `^.*facebook\.com.*$` compiles to a matcher accepting
  exactly the urls containing `facebook.com` (the regex anchors a
  wildcard on both sides of the literal, `\.` being a literal dot);
* the malformed pattern `[bad` raises `re.error` (unterminated character
  set) and so fails to compile. -/

/-- `litLeads pat s`: the literal `pat` is a leading segment of `s`. -/
def litLeads : List Char → List Char → Bool
  | [], _ => true
  | _ :: _, [] => false
  | a :: as, b :: bs => a == b && litLeads as bs

/-- `litFound pat s`: the literal `pat` occurs somewhere inside `s`. -/
def litFound (pat : List Char) : List Char → Bool
  | [] => litLeads pat []
  | s@(_ :: rest) => litLeads pat s || litFound pat rest

def containsLit (lit url : String) : Bool :=
  litFound lit.toList url.toList

def demoCompile : String → Option (String → Bool) :=
  fun p =>
    if p = "[bad" then none
    else if p = "^.*facebook\\.com.*$" then some (fun url => containsLit "facebook.com" url)
    else some (fun url => containsLit p url)

/-- C7: a failed rule fetch — an exception from the fetch, or the
empty-list error result that `fetch_blacklist` returns on any transport
error — leaves the installed snapshot (compiled patterns, rule metadata,
last-refresh timestamp) completely unchanged; and since the Python body
catches every exception, `refresh` is embedded as a total function into
`CacheState`, i.e. it never raises to its caller. -/
theorem refresh_failure_keeps_snapshot (compile : String → Option (String → Bool))
    (st : CacheState) (e : String) (now : ℚ) :
    refresh compile st (.error e) now = st ∧ refresh compile st (.ok []) now = st :=
  ⟨rfl, rfl⟩

/-- C10: a refresh that fetches an empty rule list leaves the cache
entirely unchanged — compiled patterns, rule metadata and the
last-refresh timestamp — hence `needs_refresh` keeps its value, and if
the cache was stale before the call it remains stale after it; a
deliberately emptied upstream blacklist never replaces a previously
loaded non-empty snapshot. -/
theorem refresh_empty_list_keeps_cache (compile : String → Option (String → Bool))
    (st : CacheState) (now t ttl : ℚ) (h : needs_refresh ttl st t = true) :
    refresh compile st (.ok []) now = st ∧
      needs_refresh ttl (refresh compile st (.ok []) now) t = true :=
  ⟨rfl, h⟩

lemma needs_refresh_init : needs_refresh 60 initCache 100 = true := by
  simp only [needs_refresh, initCache, decide_eq_true_eq]
  norm_num

theorem refresh_empty_list_keeps_cache_witness :
    needs_refresh 60 initCache 100 = true ∧
      (refresh demoCompile initCache (.ok []) 100 = initCache ∧
        needs_refresh 60 (refresh demoCompile initCache (.ok []) 100) 100 = true) :=
  ⟨needs_refresh_init,
    refresh_empty_list_keeps_cache demoCompile initCache 100 100 60 needs_refresh_init⟩

/-! ### The misaligned match report (claims C2 and C8)

`refresh` stores the full fetched rule list in `_pattern_data` but drops
empty and invalid patterns from the compiled list, so as soon as a rule
is dropped, the index `i` of a matching compiled pattern no longer
points at the rule it was compiled from and `is_blacklisted` reports the
wrong — possibly never-compiled — pattern string. -/

/-- `BlacklistChecker.load_patterns` from
`proxy_manager/src/proxy_manager/utils/blacklist.py`: store the full rule
list in `_patterns` and compile each pattern, dropping the ones that
raise — the compiled list is returned here, the raw list is passed along
to `check_url` below. -/
def load_patterns (compile : String → Option (String → Bool)) :
    List BlacklistRule → List Compiled
  | [] => []
  | rule :: rest =>
    match compile rule.pattern with
    | some m => (rule.pattern, m) :: load_patterns compile rest
    | none => load_patterns compile rest

/-- The scan loop of `BlacklistChecker.check_url`: each compiled pattern
is tried with `search` against the full url and against the hostname;
the first hit reports `self._patterns[i].pattern` — `data` walks the
stored raw rule list in lockstep with the compiled index `i`.  The
`none` branch is unreachable when `data` holds at least as many rules as
there are compiled patterns, which `load_patterns` guarantees. -/
def scanChecker : List Compiled → List BlacklistRule → String → String → Bool × Option String
  | [], _, _, _ => (false, none)
  | c :: cs, data, full_url, hostname =>
    if c.2 full_url || c.2 hostname then
      match data.head? with
      | some rule => (true, some rule.pattern)
      | none => (true, none)
    else scanChecker cs data.tail full_url hostname

/-- `BlacklistChecker.check_url`: empty (falsy) url is never
blacklisted; otherwise try every compiled pattern against the full url
and the hostname (`urlparse(url).netloc`, supplied by the caller of the
embedding) and report the rule at the matching compiled index. -/
def check_url (compile : String → Option (String → Bool))
    (rules : List BlacklistRule) (url hostname : String) : Bool × Option String :=
  if url = "" then (false, none)
  else scanChecker (load_patterns compile rules) rules url hostname

def c2Rules : List BlacklistRule := [⟨1, "[bad"⟩, ⟨2, "twitter"⟩]

def c2State : CacheState := refresh demoCompile initCache (.ok c2Rules) 50

/-- C2 (failing evaluation): after loading a rule list whose first rule
`[bad` failed to compile, the url `https://twitter.com/user` is matched
by the only compiled pattern, which came from the rule `twitter` — the
first (indeed only) matching rule, as the last conjunct certifies — yet
both `BlacklistCache.is_blacklisted` and `BlacklistChecker.check_url`
return the pattern string `[bad` of the dropped invalid rule, because
the compiled-pattern list and the stored raw rule list are indexed out
of step. -/
theorem is_blacklisted_reports_wrong_rule :
    is_blacklisted c2State "https://twitter.com/user" = (true, some "[bad") ∧
      check_url demoCompile c2Rules "https://twitter.com/user" "twitter.com" =
        (true, some "[bad") ∧
      (c2Rules.filter fun r =>
          match demoCompile r.pattern with
          | some m => m "https://twitter.com/user"
          | none => false) = [⟨2, "twitter"⟩] := by
  exact ⟨by decide, by decide, by decide⟩

def c8Rules : List BlacklistRule := [⟨1, "[bad"⟩, ⟨2, "twitter"⟩, ⟨3, "example"⟩]

def c8State : CacheState := refresh demoCompile initCache (.ok c8Rules) 50

/-- C8 (failing evaluation): refreshing with three rules of which one
(`[bad`) fails regex compilation yields a snapshot with exactly two
compiled patterns — that much holds — but the invalid rule does appear
in a subsequent match result: the url `https://twitter.com/x`, matched
by the compiled pattern of the `twitter` rule, is reported with the
invalid rule's pattern string `[bad`. -/
theorem invalid_rule_appears_in_match_result :
    c8State.patterns.length = 2 ∧
      is_blacklisted c8State "https://twitter.com/x" = (true, some "[bad") := by
  exact ⟨by decide, by decide⟩

/-! ## Rotation Selector

Embedding of `RotationManager` from
`proxy_manager/src/proxy_manager/utils/rotation.py`.  The database
session becomes the explicit store (the list of all proxies);
`get_working_proxies` is the `is_working` filter from `crud.py`;
`update_last_used` (the "mark used" commit in `crud.py`, invoked by
every strategy helper on its chosen proxy) sets that proxy's
`last_used` to now in the store.  `random.choice` is modelled by an
oracle index `r` reduced modulo the list length; the round-robin
counter (`round_robin_index`, guarded by the lock) is threaded
explicitly.  Python's `sorted` is a stable ascending sort by the given
key, which `List.insertionSort` with the key's `≤` reproduces exactly
(including tie order); `sorted(..., reverse=True)` is the stable
descending sort, reproduced by flipping the comparison's arguments. -/

def idLe (a b : Proxy) : Prop := a.id ≤ b.id

instance : DecidableRel idLe := fun a b => inferInstanceAs (Decidable (a.id ≤ b.id))

instance : IsTotal Proxy idLe := ⟨fun a b => Nat.le_total a.id b.id⟩

instance : IsTrans Proxy idLe := ⟨fun _ _ _ h1 h2 => Nat.le_trans h1 h2⟩

/-- `sorted(proxies, key=lambda p: p.id)`. -/
def sortById (l : List Proxy) : List Proxy := List.insertionSort idLe l

/-- `RotationManager._get_round_robin`: on a non-empty list, sort by id,
pick the element at `counter mod N` and increment the counter. -/
def _get_round_robin (proxies : List Proxy) (counter : Nat) : Option Proxy × Nat :=
  if proxies.isEmpty then (none, counter)
  else
    let sorted_proxies := sortById proxies
    (sorted_proxies.get? (counter % sorted_proxies.length), counter + 1)

/-- `RotationManager._get_random` with the random draw `r` supplied as an
oracle: `random.choice(proxies)` returns the element at a uniformly
drawn valid index. -/
def _get_random (proxies : List Proxy) (r : Nat) : Option Proxy :=
  if proxies.isEmpty then none else proxies.get? (r % proxies.length)

/-- Sort key of `_get_lru`: `p.last_used if p.last_used else datetime.min`;
`datetime.min` is modelled as 0, real timestamps being positive. -/
def lruKey (p : Proxy) : ℚ :=
  match p.last_used with
  | some t => t
  | none => 0

def lruLe (a b : Proxy) : Prop := lruKey a ≤ lruKey b

instance : DecidableRel lruLe := fun a b => inferInstanceAs (Decidable (lruKey a ≤ lruKey b))

/-- `RotationManager._get_lru`: stable-sort by the `last_used` key and
take the first element. -/
def _get_lru (proxies : List Proxy) : Option Proxy :=
  if proxies.isEmpty then none
  else (List.insertionSort lruLe proxies).head?

/-- Sort key of `_get_best` (`p.latency`, always present on the filtered
list; 0 is an arbitrary total-function default never reached). -/
def latKey (p : Proxy) : ℚ :=
  match p.latency with
  | some l => l
  | none => 0

def latLe (a b : Proxy) : Prop := latKey a ≤ latKey b

instance : DecidableRel latLe := fun a b => inferInstanceAs (Decidable (latKey a ≤ latKey b))

/-- `RotationManager._get_best`: among the proxies that have latency
data, the one with the lowest latency; if none has latency data, the
first element of the working list. -/
def _get_best (proxies : List Proxy) : Option Proxy :=
  if proxies.isEmpty then none
  else
    let proxies_with_latency := proxies.filter (fun p => p.latency.isSome)
    if proxies_with_latency.isEmpty then proxies.head?
    else (List.insertionSort latLe proxies_with_latency).head?

def scoreGe (now : ℚ) (a b : Proxy) : Prop :=
  calculate_health_score now b ≤ calculate_health_score now a

instance : DecidableRel (scoreGe now) :=
  fun a b => inferInstanceAs (Decidable (calculate_health_score now b ≤ calculate_health_score now a))

/-- `RotationManager._get_by_health_score`: score every proxy, stable-sort
descending by score (`reverse=True`), take the first. -/
def _get_by_health_score (now : ℚ) (proxies : List Proxy) : Option Proxy :=
  if proxies.isEmpty then none
  else (List.insertionSort (scoreGe now) proxies).head?

/-- `crud.get_working_proxies`: the proxies with `is_working = true`. -/
def get_working_proxies (store : List Proxy) : List Proxy :=
  store.filter (fun p => p.is_working)

/-- `crud.update_last_used`: set the chosen proxy's `last_used` to now
(committing to the store; the row is identified by its primary key). -/
def update_last_used (now : ℚ) (store : List Proxy) (chosen : Proxy) : List Proxy :=
  store.map (fun p => if p.id = chosen.id then { p with last_used := some now } else p)

/-- The strategy dispatch of `RotationManager.get_proxy`, selecting from
the working list; an unknown strategy name falls through to the
health-score branch (logged as a warning). -/
def select_proxy (strategy : String) (r counter : Nat) (now : ℚ)
    (working : List Proxy) : Option Proxy × Nat :=
  if strategy = "random" then (_get_random working r, counter)
  else if strategy = "round_robin" then _get_round_robin working counter
  else if strategy = "lru" then (_get_lru working, counter)
  else if strategy = "best" then (_get_best working, counter)
  else if strategy = "health_score" then (_get_by_health_score now working, counter)
  else (_get_by_health_score now working, counter)

/-- `RotationManager.get_proxy`: empty working set returns `None` with
the store untouched; otherwise dispatch on the strategy and apply the
`update_last_used` side effect (issued inside each strategy helper in
the source) to the chosen proxy.  Returns the selection, the updated
store, and the updated round-robin counter. -/
def get_proxy (strategy : String) (r counter : Nat) (now : ℚ)
    (store : List Proxy) : Option Proxy × List Proxy × Nat :=
  let working_proxies := get_working_proxies store
  if working_proxies.isEmpty then (none, store, counter)
  else
    match select_proxy strategy r counter now working_proxies with
    | (some p, c') => (some p, update_last_used now store p, c')
    | (none, c') => (none, store, c')

/-- `N` successive round-robin selections, threading the counter. -/
def runRoundRobin (proxies : List Proxy) : Nat → Nat → List (Option Proxy)
  | _, 0 => []
  | c, Nat.succ n =>
    let step := _get_round_robin proxies c
    step.1 :: runRoundRobin proxies step.2 n

lemma sortById_perm (l : List Proxy) : List.Perm (sortById l) l :=
  List.perm_insertionSort idLe l

lemma count_some_map (l : List Proxy) (p : Proxy) :
    (l.map some).count (some p) = l.count p := by
  induction l with
  | nil => rfl
  | cons a t ih => simp [List.count_cons, ih]

lemma sortById_length (l : List Proxy) : (sortById l).length = l.length :=
  (sortById_perm l).length_eq

lemma sortById_ne_nil {l : List Proxy} (hl : l ≠ []) : sortById l ≠ [] := by
  intro h
  have := sortById_length l
  rw [h] at this
  exact hl (List.length_eq_zero.mp this.symm)

lemma isEmpty_false_of_ne_nil {l : List Proxy} (hl : l ≠ []) : l.isEmpty = false := by
  cases l with
  | nil => exact absurd rfl hl
  | cons a t => rfl

/-- Unrolling `N` round-robin steps from counter `c`: the `i`-th
selection is the sorted working list at index `(c + i) mod N`. -/
lemma runRoundRobin_eq (proxies : List Proxy) (hne : proxies ≠ []) :
    ∀ n c, runRoundRobin proxies c n =
      (List.range n).map
        (fun i => (sortById proxies).get? ((c + i) % (sortById proxies).length)) := by
  intro n
  induction n with
  | zero => intro c; rfl
  | succ n ih =>
    intro c
    have hemp : proxies.isEmpty = false := isEmpty_false_of_ne_nil hne
    simp only [runRoundRobin, _get_round_robin, hemp, Bool.false_eq_true, if_false]
    rw [ih (c + 1), List.range_succ_eq_map, List.map_cons, List.map_map]
    refine congrArg₂ _ (by rw [Nat.add_zero]) ?_
    refine List.map_congr_left fun i _ => ?_
    simp only [Function.comp_apply]
    congr 2
    omega

/-- A rotation of a list, written through the index formula used by the
round-robin counter. -/
lemma rotate_map_get? (l : List Proxy) (m : Nat) (hl : l ≠ []) :
    (l.rotate m).map some =
      (List.range l.length).map (fun i => l.get? ((m + i) % l.length)) := by
  have hlen : 0 < l.length := List.length_pos.mpr hl
  apply List.ext_getElem?
  intro i
  rcases Nat.lt_or_ge i l.length with hi | hi
  · rw [List.getElem?_map, List.getElem?_map, List.getElem?_range hi,
      List.getElem?_rotate hi, Nat.add_comm i m]
    have hlt : (m + i) % l.length < l.length := Nat.mod_lt _ hlen
    simp [List.get?_eq_getElem?, List.getElem?_eq_getElem hlt]
  · have h1 : ((l.rotate m).map some)[i]? = none := by
      rw [List.getElem?_eq_none]
      rw [List.length_map, List.length_rotate]
      exact hi
    have h2 : ((List.range l.length).map
        (fun j => l.get? ((m + j) % l.length)))[i]? = none := by
      rw [List.getElem?_eq_none]
      rw [List.length_map, List.length_range]
      exact hi
    rw [h1, h2]

/-- C5: starting from any counter value `c`, `N` consecutive round-robin
selections over a fixed non-empty working set of `N` proxies with
distinct identifiers (i) are exactly the identifier-sorted working set
rotated to start at position `c mod N`, (ii) return each proxy exactly
once before any repeat, (iii) follow the strictly ascending identifier
order of the sorted set (cyclically), and (iv) from a counter at a
multiple of `N` — in particular a fresh counter — are exactly the
ascending-identifier enumeration. -/
theorem round_robin_visits_each_once (proxies : List Proxy) (c : Nat)
    (hne : proxies ≠ []) (hids : (proxies.map Proxy.id).Nodup) :
    runRoundRobin proxies c proxies.length =
        ((sortById proxies).rotate (c % proxies.length)).map some ∧
      (∀ p ∈ proxies,
        (runRoundRobin proxies c proxies.length).count (some p) = 1) ∧
      List.Pairwise (fun a b => a.id < b.id) (sortById proxies) ∧
      (c % proxies.length = 0 →
        runRoundRobin proxies c proxies.length = (sortById proxies).map some) := by
  have hslen : (sortById proxies).length = proxies.length := sortById_length proxies
  have hsne : sortById proxies ≠ [] := sortById_ne_nil hne
  have hmain : runRoundRobin proxies c proxies.length =
      ((sortById proxies).rotate (c % proxies.length)).map some := by
    rw [runRoundRobin_eq proxies hne proxies.length c,
      rotate_map_get? (sortById proxies) (c % proxies.length) hsne, hslen]
    refine List.map_congr_left fun i _ => ?_
    congr 1
    conv_rhs => rw [Nat.add_comm (c % proxies.length) i, ← hslen]
    conv_lhs => rw [← hslen]
    conv_rhs =>
      rw [Nat.add_mod, Nat.mod_mod_of_dvd c (dvd_refl (sortById proxies).length),
        ← Nat.add_mod]
    rw [Nat.add_comm]
  refine ⟨hmain, ?_, ?_, ?_⟩
  · intro p hp
    rw [hmain, count_some_map]
    rw [((sortById proxies).rotate_perm (c % proxies.length)).count_eq,
      (sortById_perm proxies).count_eq]
    exact List.count_eq_one_of_mem (List.Nodup.of_map Proxy.id hids) hp
  · have hsorted : List.Pairwise idLe (sortById proxies) :=
      List.sorted_insertionSort idLe proxies
    have hnd : ((sortById proxies).map Proxy.id).Nodup :=
      (((sortById_perm proxies).map Proxy.id).nodup_iff).mpr hids
    have hneq : List.Pairwise (fun a b => a.id ≠ b.id) (sortById proxies) :=
      List.pairwise_map.mp hnd
    exact (hsorted.and hneq).imp fun h => lt_of_le_of_ne h.1 h.2
  · intro h0
    rw [hmain, h0, List.rotate_zero]

def rrDemo : List Proxy := [{ id := 2 }, { id := 1 }]

theorem round_robin_visits_each_once_witness :
    rrDemo ≠ [] ∧ (rrDemo.map Proxy.id).Nodup ∧
      (runRoundRobin rrDemo 1 rrDemo.length =
          ((sortById rrDemo).rotate (1 % rrDemo.length)).map some ∧
        (∀ p ∈ rrDemo,
          (runRoundRobin rrDemo 1 rrDemo.length).count (some p) = 1) ∧
        List.Pairwise (fun a b => a.id < b.id) (sortById rrDemo) ∧
        (1 % rrDemo.length = 0 →
          runRoundRobin rrDemo 1 rrDemo.length = (sortById rrDemo).map some)) :=
  ⟨by decide, by decide, round_robin_visits_each_once rrDemo 1 (by decide) (by decide)⟩

lemma get?_mod_mem (l : List Proxy) (hl : l ≠ []) (k : Nat) :
    ∃ p, l.get? (k % l.length) = some p ∧ p ∈ l := by
  have hlen : 0 < l.length := List.length_pos.mpr hl
  have hk : k % l.length < l.length := Nat.mod_lt _ hlen
  exact ⟨l.get ⟨k % l.length, hk⟩, List.get?_eq_get hk, l.get_mem _ _⟩

lemma sort_head_mem (r : Proxy → Proxy → Prop) [DecidableRel r] (l : List Proxy)
    (hl : l ≠ []) :
    ∃ p, (List.insertionSort r l).head? = some p ∧ p ∈ l := by
  have hp : List.Perm (List.insertionSort r l) l := List.perm_insertionSort r l
  cases hs : List.insertionSort r l with
  | nil =>
    rw [hs] at hp
    exact absurd (hp.symm.eq_nil) hl
  | cons a t =>
    refine ⟨a, rfl, hp.subset ?_⟩
    rw [hs]
    exact List.mem_cons_self a t

lemma head?_mem_self (l : List Proxy) (hl : l ≠ []) :
    ∃ p, l.head? = some p ∧ p ∈ l := by
  cases l with
  | nil => exact absurd rfl hl
  | cons a t => exact ⟨a, rfl, List.mem_cons_self a t⟩

/-- Whatever the strategy string — including an unrecognized one — the
dispatch on a non-empty working list selects some member of it. -/
lemma select_proxy_some (strategy : String) (r c : Nat) (now : ℚ)
    (working : List Proxy) (hw : working ≠ []) :
    ∃ p c', select_proxy strategy r c now working = (some p, c') ∧ p ∈ working := by
  have hemp : working.isEmpty = false := isEmpty_false_of_ne_nil hw
  unfold select_proxy
  split_ifs with h1 h2 h3 h4 h5
  · obtain ⟨p, hg, hm⟩ := get?_mod_mem working hw r
    exact ⟨p, c, by rw [_get_random, hemp]; simpa using congrArg (·, c) hg, hm⟩
  · have hsne : sortById working ≠ [] := sortById_ne_nil hw
    obtain ⟨p, hg, hm⟩ := get?_mod_mem (sortById working) hsne c
    refine ⟨p, c + 1, ?_, (sortById_perm working).subset hm⟩
    rw [_get_round_robin, hemp]
    simpa using congrArg (·, c + 1) hg
  · obtain ⟨p, hg, hm⟩ := sort_head_mem lruLe working hw
    refine ⟨p, c, ?_, hm⟩
    rw [_get_lru, hemp]
    simpa using congrArg (·, c) hg
  · rw [_get_best, hemp]
    simp only [Bool.false_eq_true, if_false]
    cases hfe : (working.filter (fun p => p.latency.isSome)).isEmpty with
    | false =>
      have hfne : working.filter (fun p => p.latency.isSome) ≠ [] := by
        intro h
        rw [h] at hfe
        cases hfe
      obtain ⟨p, hg, hm⟩ :=
        sort_head_mem latLe (working.filter (fun p => p.latency.isSome)) hfne
      refine ⟨p, c, ?_, List.mem_of_mem_filter hm⟩
      simp only [Bool.false_eq_true, if_false]
      rw [hg]
    | true =>
      obtain ⟨p, hg, hm⟩ := head?_mem_self working hw
      refine ⟨p, c, ?_, hm⟩
      simp only [if_true]
      rw [hg]
  · obtain ⟨p, hg, hm⟩ := sort_head_mem (scoreGe now) working hw
    refine ⟨p, c, ?_, hm⟩
    rw [_get_by_health_score, hemp]
    simpa using congrArg (·, c) hg
  · obtain ⟨p, hg, hm⟩ := sort_head_mem (scoreGe now) working hw
    refine ⟨p, c, ?_, hm⟩
    rw [_get_by_health_score, hemp]
    simpa using congrArg (·, c) hg

/-- Distinct identifiers identify proxies in the store (the database
primary-key invariant). -/
lemma nodup_ids_inj {store : List Proxy} (hids : (store.map Proxy.id).Nodup) :
    ∀ q ∈ store, ∀ p ∈ store, q.id = p.id → q = p := by
  induction store with
  | nil => intro q hq; cases hq
  | cons a l ih =>
    rw [List.map_cons, List.nodup_cons] at hids
    obtain ⟨hna, hnl⟩ := hids
    intro q hq p hp heq
    rcases List.mem_cons.mp hq with rfl | hq' <;> rcases List.mem_cons.mp hp with rfl | hp'
    · rfl
    · exact absurd (heq ▸ List.mem_map_of_mem Proxy.id hp') hna
    · exact absurd (heq ▸ List.mem_map_of_mem Proxy.id hq') hna
    · exact ih hnl q hq' p hp' heq

/-- C6: for every strategy string (the five known ones and any
unrecognized one), selection over an empty working set returns `None`
and leaves every proxy untouched; selection over a non-empty working
set returns some member `p` of the working set and updates the store
exactly by setting `p`'s `last_used` to now: the store keeps its
length, the chosen proxy reappears with only `last_used` changed, and
every other proxy is still present unchanged. -/
theorem get_proxy_marks_only_chosen (strategy : String) (r c : Nat) (now : ℚ)
    (store : List Proxy) (hids : (store.map Proxy.id).Nodup) :
    (get_working_proxies store = [] →
        get_proxy strategy r c now store = (none, store, c)) ∧
      (get_working_proxies store ≠ [] →
        ∃ p, (get_proxy strategy r c now store).1 = some p ∧
          p ∈ get_working_proxies store ∧
          (get_proxy strategy r c now store).2.1 = update_last_used now store p ∧
          (get_proxy strategy r c now store).2.1.length = store.length ∧
          { p with last_used := some now } ∈ (get_proxy strategy r c now store).2.1 ∧
          ∀ q ∈ store, q ≠ p → q ∈ (get_proxy strategy r c now store).2.1) := by
  constructor
  · intro h
    rw [get_proxy, h]
    rfl
  · intro hw
    obtain ⟨p, c', hsel, hmem⟩ := select_proxy_some strategy r c now (get_working_proxies store) hw
    have hemp : (get_working_proxies store).isEmpty = false := isEmpty_false_of_ne_nil hw
    have hres : get_proxy strategy r c now store = (some p, update_last_used now store p, c') := by
      rw [get_proxy]
      simp only [hemp, Bool.false_eq_true, if_false, hsel]
    have hpstore : p ∈ store := List.mem_of_mem_filter hmem
    refine ⟨p, by rw [hres], hmem, by rw [hres], ?_, ?_, ?_⟩
    · rw [hres]
      exact List.length_map store _
    · rw [hres]
      have : ({ p with last_used := some now } : Proxy) =
          (fun q => if q.id = p.id then { q with last_used := some now } else q) p := by
        simp
      rw [this]
      exact List.mem_map_of_mem _ hpstore
    · intro q hq hqp
      rw [hres]
      have hqid : q.id ≠ p.id := fun h => hqp (nodup_ids_inj hids q hq p hpstore h)
      have : q = (fun x => if x.id = p.id then { x with last_used := some now } else x) q := by
        simp [hqid]
      rw [this]
      exact List.mem_map_of_mem _ hq

def storeDemo : List Proxy :=
  [{ id := 1, is_working := true }, { id := 2, is_working := true }, { id := 3 }]

theorem get_proxy_marks_only_chosen_witness :
    (storeDemo.map Proxy.id).Nodup ∧
      ((get_working_proxies storeDemo = [] →
          get_proxy "mystery" 0 0 7 storeDemo = (none, storeDemo, 0)) ∧
        (get_working_proxies storeDemo ≠ [] →
          ∃ p, (get_proxy "mystery" 0 0 7 storeDemo).1 = some p ∧
            p ∈ get_working_proxies storeDemo ∧
            (get_proxy "mystery" 0 0 7 storeDemo).2.1 = update_last_used 7 storeDemo p ∧
            (get_proxy "mystery" 0 0 7 storeDemo).2.1.length = storeDemo.length ∧
            { p with last_used := some 7 } ∈ (get_proxy "mystery" 0 0 7 storeDemo).2.1 ∧
            ∀ q ∈ storeDemo, q ≠ p → q ∈ (get_proxy "mystery" 0 0 7 storeDemo).2.1)) :=
  ⟨by decide, get_proxy_marks_only_chosen "mystery" 0 0 7 storeDemo (by decide)⟩

/-! ## Proxy Health Prober

Embedding of `ProxyTester.test_proxies_batch` from
`proxy_manager/src/proxy_manager/utils/proxy_tester.py`.  The result of
one probe's execution (`future.result()`) is an oracle `Proxy → Except
String ProxyTestResult`: `.ok` is the `ProxyTestResult` the probe
produced (itself possibly a failure result), `.error` is an exception
escaping the probe execution.  The Python result dict keyed by
`proxy.id` is modelled as an association list with dict
assignment/lookup semantics.  `as_completed` yields futures in an
arbitrary completion order; the fold processes submissions in input
order, which determines the same final map whenever the proxy
identifiers are distinct (each key is written exactly once). -/

structure ProxyTestResult where
  proxy_id : Nat
  success : Bool
  latency : Option ℚ := none
  status_code : Option Nat := none
  error : Option String := none
deriving DecidableEq, Repr

/-- Dict assignment `d[k] = v`. -/
def dictInsert (d : List (Nat × ProxyTestResult)) (k : Nat) (v : ProxyTestResult) :
    List (Nat × ProxyTestResult) :=
  if d.any (fun e => decide (e.1 = k)) then
    d.map (fun e => if e.1 = k then (k, v) else e)
  else d ++ [(k, v)]

/-- Dict lookup `d.get(k)`. -/
def dictLookup (d : List (Nat × ProxyTestResult)) (k : Nat) : Option ProxyTestResult :=
  match d with
  | [] => none
  | e :: rest => if e.1 = k then some e.2 else dictLookup rest k

/-- The per-proxy step of the collection loop: store the probe's result
under the proxy's id, synthesizing
`ProxyTestResult(proxy_id=proxy.id, success=False, error="Test execution
error: ...")` when the probe execution itself raised. -/
def batchStep (probe : Proxy → Except String ProxyTestResult)
    (results : List (Nat × ProxyTestResult)) (p : Proxy) :
    List (Nat × ProxyTestResult) :=
  dictInsert results p.id
    (match probe p with
     | .ok result => result
     | .error e =>
       { proxy_id := p.id, success := false,
         error := some ("Test execution error: " ++ e) })

/-- `ProxyTester.test_proxies_batch`. -/
def test_proxies_batch (probe : Proxy → Except String ProxyTestResult)
    (proxies : List Proxy) : List (Nat × ProxyTestResult) :=
  proxies.foldl (batchStep probe) []

lemma dictLookup_map_self (d : List (Nat × ProxyTestResult)) (k : Nat)
    (v : ProxyTestResult) (h : d.any (fun e => decide (e.1 = k)) = true) :
    dictLookup (d.map (fun e => if e.1 = k then (k, v) else e)) k = some v := by
  induction d with
  | nil => cases h
  | cons e rest ih =>
    rw [List.any_cons] at h
    by_cases he : e.1 = k
    · simp [dictLookup, he]
    · have hrest : rest.any (fun e => decide (e.1 = k)) = true := by
        simpa [he] using h
      simp [dictLookup, he, ih hrest]

lemma dictLookup_append_of_none (d : List (Nat × ProxyTestResult)) (k : Nat)
    (v : ProxyTestResult) (h : dictLookup d k = none) :
    dictLookup (d ++ [(k, v)]) k = some v := by
  induction d with
  | nil => simp [dictLookup]
  | cons e rest ih =>
    by_cases he : e.1 = k
    · rw [dictLookup, if_pos he] at h
      cases h
    · rw [dictLookup, if_neg he] at h
      rw [List.cons_append, dictLookup, if_neg he]
      exact ih h

lemma dictLookup_none_of_not_any (d : List (Nat × ProxyTestResult)) (k : Nat)
    (h : ¬d.any (fun e => decide (e.1 = k)) = true) : dictLookup d k = none := by
  induction d with
  | nil => rfl
  | cons e rest ih =>
    rw [List.any_cons] at h
    by_cases he : e.1 = k
    · exact absurd (by simp [he]) h
    · have hrest : ¬rest.any (fun e => decide (e.1 = k)) = true := fun hr =>
        h (by simp [hr])
      rw [dictLookup, if_neg he]
      exact ih hrest

lemma dictLookup_insert_self (d : List (Nat × ProxyTestResult)) (k : Nat)
    (v : ProxyTestResult) : dictLookup (dictInsert d k v) k = some v := by
  unfold dictInsert
  by_cases h : d.any (fun e => decide (e.1 = k)) = true
  · rw [if_pos h]
    exact dictLookup_map_self d k v h
  · rw [if_neg h]
    exact dictLookup_append_of_none d k v (dictLookup_none_of_not_any d k h)

lemma dictLookup_map_ne (d : List (Nat × ProxyTestResult)) (kIns k : Nat)
    (v : ProxyTestResult) (h : k ≠ kIns) :
    dictLookup (d.map (fun e => if e.1 = kIns then (kIns, v) else e)) k =
      dictLookup d k := by
  induction d with
  | nil => rfl
  | cons e rest ih =>
    by_cases he : e.1 = kIns
    · have h1 : ¬kIns = k := fun hk => h hk.symm
      simp only [List.map_cons, dictLookup, he, eq_self_iff_true, if_true, h1,
        if_false, ih]
    · by_cases hek : e.1 = k
      · simp only [List.map_cons, dictLookup, if_neg he, if_pos hek]
      · simp only [List.map_cons, dictLookup, if_neg he, if_neg hek, ih]

lemma dictLookup_append_ne (d : List (Nat × ProxyTestResult)) (kIns k : Nat)
    (v : ProxyTestResult) (h : k ≠ kIns) :
    dictLookup (d ++ [(kIns, v)]) k = dictLookup d k := by
  induction d with
  | nil => simp [dictLookup, Ne.symm h]
  | cons e rest ih =>
    by_cases hek : e.1 = k
    · simp [dictLookup, hek]
    · simp [dictLookup, hek, ih]

lemma dictLookup_insert_ne (d : List (Nat × ProxyTestResult)) (kIns k : Nat)
    (v : ProxyTestResult) (h : k ≠ kIns) :
    dictLookup (dictInsert d kIns v) k = dictLookup d k := by
  unfold dictInsert
  split_ifs with hAny
  · exact dictLookup_map_ne d kIns k v h
  · exact dictLookup_append_ne d kIns k v h

lemma batch_foldl_untouched (probe : Proxy → Except String ProxyTestResult)
    (l : List Proxy) (k : Nat) (hk : ∀ p ∈ l, p.id ≠ k) :
    ∀ acc, dictLookup (l.foldl (batchStep probe) acc) k = dictLookup acc k := by
  induction l with
  | nil => intro acc; rfl
  | cons q t ih =>
    intro acc
    rw [List.foldl_cons, ih (fun p hp => hk p (List.mem_cons_of_mem q hp))]
    exact dictLookup_insert_ne acc q.id k _ (fun h => hk q (List.mem_cons_self q t) h.symm)

/-- C9: with distinct proxy identifiers, the batch result map has an
entry for every input proxy's identifier; the entry is the probe's own
result when its execution completed, and the synthesized failure result
(`success = false`, a "Test execution error" description, no latency,
no status code) when the probe execution raised — one probe's failure
never removes or alters any other proxy's entry. -/
theorem test_proxies_batch_covers_all (probe : Proxy → Except String ProxyTestResult)
    (proxies : List Proxy) (hids : (proxies.map Proxy.id).Nodup) :
    ∀ p ∈ proxies,
      dictLookup (test_proxies_batch probe proxies) p.id =
        some (match probe p with
              | .ok result => result
              | .error e =>
                { proxy_id := p.id, success := false,
                  error := some ("Test execution error: " ++ e) }) := by
  suffices h : ∀ acc, ∀ p ∈ proxies,
      dictLookup (proxies.foldl (batchStep probe) acc) p.id =
        some (match probe p with
              | .ok result => result
              | .error e =>
                { proxy_id := p.id, success := false,
                  error := some ("Test execution error: " ++ e) }) by
    exact h []
  induction proxies with
  | nil => intro acc p hp; cases hp
  | cons q t ih =>
    rw [List.map_cons, List.nodup_cons] at hids
    obtain ⟨hq, ht⟩ := hids
    intro acc p hp
    rcases List.mem_cons.mp hp with rfl | hp'
    · rw [List.foldl_cons,
        batch_foldl_untouched probe t p.id
          (fun x hx hxe => hq (hxe ▸ List.mem_map_of_mem Proxy.id hx)) _]
      exact dictLookup_insert_self acc p.id _
    · exact ih ht (batchStep probe acc q) p hp'

def probeDemoProxies : List Proxy := [{ id := 1 }, { id := 2 }, { id := 3 }]

/-- A probe oracle whose execution raises for proxy 2 and completes for
the others. -/
def probeDemo : Proxy → Except String ProxyTestResult :=
  fun p =>
    if p.id = 2 then .error "boom"
    else .ok { proxy_id := p.id, success := true, latency := some 50, status_code := some 200 }

theorem test_proxies_batch_covers_all_witness :
    (probeDemoProxies.map Proxy.id).Nodup ∧
      ({ id := 2 } : Proxy) ∈ probeDemoProxies ∧
      dictLookup (test_proxies_batch probeDemo probeDemoProxies) 2 =
        some { proxy_id := 2, success := false,
               error := some ("Test execution error: " ++ "boom") } :=
  ⟨by decide, by decide,
    test_proxies_batch_covers_all probeDemo probeDemoProxies (by decide)
      { id := 2 } (by decide)⟩

/-! ## Forwarding Orchestrator

Embedding of `ForwarderAddon.request` and
`ForwarderAddon._forward_request_with_proxy` from
`backend/mitm_forwarder/src/mitm_forwarder/__main__.py`.

One call to `_forward_request_with_proxy` makes exactly one
proxy-issuing call (`get_proxy`) and returns
`(True, info)` on a relayed upstream response, `(False, None)` when the
proxy-issuing collaborator reports no proxy available, and
`(False, info)` on a connection-level error (`httpx.ProxyError`,
`httpx.TimeoutException`, `httpx.RequestError`) or any other exception
of the upstream call.  Those outcomes are the `AttemptResult` oracle;
the primary strategy's outcome may differ per attempt index, the single
fallback attempt has its own outcome.  `handleRequest` returns the
response status together with the sequence of proxy-issuing calls
performed, each recorded by its strategy string.  Activity logging is
fire-and-forget and `ensure_fresh` only schedules a background task, so
neither affects the status or the calls; the semaphore suspends but
never rejects and is likewise erased. -/

inductive AttemptResult where
  | success (status : Nat)
  | failure
  | noProxy
deriving DecidableEq, Repr

def isSuccess : AttemptResult → Bool
  | .success _ => true
  | _ => false

/-- The loop `for attempt in range(retry_count + 1)` of
`ForwarderAddon.request`, recorded as the list of attempt outcomes
actually performed, starting at attempt index `i` with `n` iterations
remaining: a success returns from the handler, a no-proxy result breaks
to the fallback, and a connection-level failure continues with the next
iteration. -/
def primaryAttempts (primary : Nat → AttemptResult) (i : Nat) : Nat → List AttemptResult
  | 0 => []
  | n + 1 =>
    match primary i with
    | .success s => [.success s]
    | .noProxy => [.noProxy]
    | .failure => .failure :: primaryAttempts primary (i + 1) n

/-- The status of the attempt that succeeded, if any (only the last
recorded attempt can be a success). -/
def successStatus : List AttemptResult → Option Nat
  | [] => none
  | .success s :: _ => some s
  | _ :: rest => successStatus rest

structure ForwarderSettings where
  require_user_jwt : Bool
  default_user_jwt : String
  rotation_strategy : String
  retry_count : Nat
  fallback_strategy : String

/-- `user_jwt = client_auth if client_auth else settings.default_user_jwt`
(`None` and the empty string are falsy). -/
def effective_user_jwt (cfg : ForwarderSettings) (authHeader : Option String) : String :=
  match authHeader with
  | some a => if a = "" then cfg.default_user_jwt else a
  | none => cfg.default_user_jwt

/-- `ForwarderAddon.request`: reject 401 when no jwt is available and one
is required; reject 403 on a blacklist match before any proxy-issuing
call; otherwise run the primary attempt loop and, when it ends without a
success and the fallback strategy differs from the primary one, a single
fallback attempt; a fallback failure of any kind, or an exhausted
primary budget with no fallback, yields 502. -/
def handleRequest (cfg : ForwarderSettings) (authHeader : Option String) (url : String)
    (st : CacheState) (primary : Nat → AttemptResult) (fb : AttemptResult) :
    Nat × List String :=
  if effective_user_jwt cfg authHeader = "" ∧ cfg.require_user_jwt then (401, [])
  else if (is_blacklisted st url).1 then (403, [])
  else
    match successStatus (primaryAttempts primary 0 (cfg.retry_count + 1)) with
    | some s =>
      (s, (primaryAttempts primary 0 (cfg.retry_count + 1)).map
            (fun _ => cfg.rotation_strategy))
    | none =>
      if cfg.fallback_strategy ≠ cfg.rotation_strategy then
        match fb with
        | .success s =>
          (s, (primaryAttempts primary 0 (cfg.retry_count + 1)).map
                (fun _ => cfg.rotation_strategy) ++ [cfg.fallback_strategy])
        | _ =>
          (502, (primaryAttempts primary 0 (cfg.retry_count + 1)).map
                  (fun _ => cfg.rotation_strategy) ++ [cfg.fallback_strategy])
      else
        (502, (primaryAttempts primary 0 (cfg.retry_count + 1)).map
                (fun _ => cfg.rotation_strategy))

lemma primaryAttempts_length_le (primary : Nat → AttemptResult) :
    ∀ n i, (primaryAttempts primary i n).length ≤ n := by
  intro n
  induction n with
  | zero => intro i; exact Nat.le_refl 0
  | succ n ih =>
    intro i
    rw [primaryAttempts]
    cases primary i <;> simp [List.length_cons]
    exact ih (i + 1)

lemma primaryAttempts_pos (primary : Nat → AttemptResult) (i n : Nat) (h : 0 < n) :
    0 < (primaryAttempts primary i n).length := by
  cases n with
  | zero => cases h
  | succ n =>
    rw [primaryAttempts]
    cases primary i <;> simp

lemma primaryAttempts_mid_failure (primary : Nat → AttemptResult) :
    ∀ n i j, j + 1 < (primaryAttempts primary i n).length → primary (i + j) = .failure := by
  intro n
  induction n with
  | zero => intro i j h; cases h
  | succ n ih =>
    intro i j h
    rw [primaryAttempts] at h
    cases hp : primary i with
    | success s => rw [hp] at h; cases h with | step h => cases h
    | noProxy => rw [hp] at h; cases h with | step h => cases h
    | failure =>
      rw [hp] at h
      cases j with
      | zero => rw [Nat.add_zero]; exact hp
      | succ j =>
        have h' : j + 1 < (primaryAttempts primary (i + 1) n).length := by
          simpa using Nat.lt_of_succ_lt_succ h
        have := ih (i + 1) j h'
        rw [← this]
        congr 1
        omega

lemma primaryAttempts_cons_failure (primary : Nat → AttemptResult) (i n : Nat)
    (h : primary i = .failure) :
    primaryAttempts primary i (n + 1) = .failure :: primaryAttempts primary (i + 1) n := by
  rw [primaryAttempts, h]

lemma primaryAttempts_advances (primary : Nat → AttemptResult) :
    ∀ k n i, k + 1 < n → (∀ j, j ≤ k → primary (i + j) = .failure) →
      k + 2 ≤ (primaryAttempts primary i n).length := by
  intro k
  induction k with
  | zero =>
    intro n i hn hj
    cases n with
    | zero => cases hn
    | succ m =>
      have h0 : primary i = .failure := by
        have h := hj 0 (Nat.le_refl 0)
        rwa [Nat.add_zero] at h
      rw [primaryAttempts_cons_failure primary i m h0]
      simp only [List.length_cons]
      exact Nat.succ_le_succ
        (primaryAttempts_pos primary (i + 1) m (Nat.lt_of_succ_lt_succ hn))
  | succ k ih =>
    intro n i hn hj
    cases n with
    | zero => cases hn
    | succ m =>
      have h0 : primary i = .failure := by
        have h := hj 0 (Nat.zero_le _)
        rwa [Nat.add_zero] at h
      rw [primaryAttempts_cons_failure primary i m h0]
      simp only [List.length_cons]
      refine Nat.succ_le_succ (ih m (i + 1) (Nat.lt_of_succ_lt_succ hn) ?_)
      intro j hjk
      have := hj (j + 1) (Nat.succ_le_succ hjk)
      rw [← this]
      congr 1
      omega

lemma primaryAttempts_stops_at_noProxy (primary : Nat → AttemptResult) :
    ∀ k n i, k < n → (∀ j, j < k → primary (i + j) = .failure) →
      primary (i + k) = .noProxy →
      primaryAttempts primary i n = List.replicate k .failure ++ [.noProxy] := by
  intro k
  induction k with
  | zero =>
    intro n i hn _ hk
    cases n with
    | zero => cases hn
    | succ m =>
      rw [Nat.add_zero] at hk
      rw [primaryAttempts, hk]
      rfl
  | succ k ih =>
    intro n i hn hj hk
    cases n with
    | zero => cases hn
    | succ m =>
      have h0 : primary i = .failure := by
        rw [← Nat.add_zero i]
        exact hj 0 (Nat.succ_pos k)
      rw [primaryAttempts, h0]
      have hrest : primaryAttempts primary (i + 1) m =
          List.replicate k .failure ++ [.noProxy] := by
        refine ih m (i + 1) (Nat.lt_of_succ_lt_succ hn) ?_ ?_
        · intro j hjk
          have := hj (j + 1) (Nat.succ_lt_succ hjk)
          rw [← this]
          congr 1
          omega
        · rw [← hk]
          congr 1
          omega
      rw [hrest, List.replicate_succ, List.cons_append]

lemma successStatus_eq_none_iff (l : List AttemptResult) :
    successStatus l = none ↔ ∀ a ∈ l, isSuccess a = false := by
  induction l with
  | nil => simp [successStatus]
  | cons a rest ih =>
    cases a with
    | success s => simp [successStatus, isSuccess]
    | failure => simp [successStatus, isSuccess, ih]
    | noProxy => simp [successStatus, isSuccess, ih]

/-- C1: for a request that passes the auth and blacklist gates, with
primary strategy `s`, fallback `f` and retry budget `r`: (i) at most
`r + 1` primary attempts are made; (ii) every attempt before the last
recorded one was a connection-level failure — only failures advance the
loop; (iii) conversely, a failure with budget remaining always advances
to another attempt; (iv) a no-proxy answer, after `k` failures, ends the
primary phase right there (`k + 1` attempts, no further retries); and
(v) the proxy-issuing call trace is the primary attempts, each with
strategy `s`, followed by exactly one fallback call with strategy `f`
exactly when no primary attempt succeeded and `f ≠ s` — so fallback, if
any, begins immediately after the last primary attempt. -/
theorem primary_retries_then_single_fallback (cfg : ForwarderSettings)
    (authHeader : Option String) (url : String) (st : CacheState)
    (primary : Nat → AttemptResult) (fb : AttemptResult)
    (hauth : ¬(effective_user_jwt cfg authHeader = "" ∧ cfg.require_user_jwt = true))
    (hbl : (is_blacklisted st url).1 = false) :
    (primaryAttempts primary 0 (cfg.retry_count + 1)).length ≤ cfg.retry_count + 1 ∧
      (∀ j, j + 1 < (primaryAttempts primary 0 (cfg.retry_count + 1)).length →
        primary j = .failure) ∧
      (∀ k, k + 1 < cfg.retry_count + 1 → (∀ j, j ≤ k → primary j = .failure) →
        k + 2 ≤ (primaryAttempts primary 0 (cfg.retry_count + 1)).length) ∧
      (∀ k, k < cfg.retry_count + 1 → (∀ j, j < k → primary j = .failure) →
        primary k = .noProxy →
        primaryAttempts primary 0 (cfg.retry_count + 1) =
          List.replicate k .failure ++ [.noProxy]) ∧
      (successStatus (primaryAttempts primary 0 (cfg.retry_count + 1)) = none ↔
        ∀ a ∈ primaryAttempts primary 0 (cfg.retry_count + 1), isSuccess a = false) ∧
      (handleRequest cfg authHeader url st primary fb).2 =
        (primaryAttempts primary 0 (cfg.retry_count + 1)).map
            (fun _ => cfg.rotation_strategy) ++
          (if successStatus (primaryAttempts primary 0 (cfg.retry_count + 1)) = none ∧
              cfg.fallback_strategy ≠ cfg.rotation_strategy
           then [cfg.fallback_strategy] else []) := by
  refine ⟨primaryAttempts_length_le primary _ 0,
    fun j h => by simpa using primaryAttempts_mid_failure primary _ 0 j h,
    fun k hk hj => primaryAttempts_advances primary k _ 0 hk (by simpa using hj),
    fun k hk hj hnp => primaryAttempts_stops_at_noProxy primary k _ 0 hk
      (by simpa using hj) (by simpa using hnp),
    successStatus_eq_none_iff _, ?_⟩
  rw [handleRequest.eq_def, if_neg hauth]
  simp only [hbl, Bool.false_eq_true, if_false]
  cases hs : successStatus (primaryAttempts primary 0 (cfg.retry_count + 1)) with
  | some s => simp
  | none =>
    cases fb <;>
      by_cases hf : cfg.fallback_strategy = cfg.rotation_strategy <;>
        simp [hf]

def cfgDemo : ForwarderSettings :=
  { require_user_jwt := true, default_user_jwt := "tok",
    rotation_strategy := "best", retry_count := 1,
    fallback_strategy := "health_score" }

def primaryDemo : Nat → AttemptResult := fun i => if i = 0 then .failure else .noProxy

theorem primary_retries_then_single_fallback_witness :
    ¬(effective_user_jwt cfgDemo none = "" ∧ cfgDemo.require_user_jwt = true) ∧
      (is_blacklisted initCache "https://ok.example/a").1 = false ∧
      ((primaryAttempts primaryDemo 0 (cfgDemo.retry_count + 1)).length ≤
          cfgDemo.retry_count + 1 ∧
        (∀ j, j + 1 < (primaryAttempts primaryDemo 0 (cfgDemo.retry_count + 1)).length →
          primaryDemo j = .failure) ∧
        (∀ k, k + 1 < cfgDemo.retry_count + 1 →
          (∀ j, j ≤ k → primaryDemo j = .failure) →
          k + 2 ≤ (primaryAttempts primaryDemo 0 (cfgDemo.retry_count + 1)).length) ∧
        (∀ k, k < cfgDemo.retry_count + 1 →
          (∀ j, j < k → primaryDemo j = .failure) →
          primaryDemo k = .noProxy →
          primaryAttempts primaryDemo 0 (cfgDemo.retry_count + 1) =
            List.replicate k .failure ++ [.noProxy]) ∧
        (successStatus (primaryAttempts primaryDemo 0 (cfgDemo.retry_count + 1)) = none ↔
          ∀ a ∈ primaryAttempts primaryDemo 0 (cfgDemo.retry_count + 1),
            isSuccess a = false) ∧
        (handleRequest cfgDemo none "https://ok.example/a" initCache primaryDemo
            (.success 200)).2 =
          (primaryAttempts primaryDemo 0 (cfgDemo.retry_count + 1)).map
              (fun _ => cfgDemo.rotation_strategy) ++
            (if successStatus (primaryAttempts primaryDemo 0 (cfgDemo.retry_count + 1)) =
                  none ∧
                cfgDemo.fallback_strategy ≠ cfgDemo.rotation_strategy
             then [cfgDemo.fallback_strategy] else [])) :=
  ⟨by decide, by decide,
    primary_retries_then_single_fallback cfgDemo none "https://ok.example/a" initCache
      primaryDemo (.success 200) (by decide) (by decide)⟩

/-! ### Blacklist gating (claim C3) -/

/-- A deployment configuration with `REQUIRE_USER_JWT=True` and an empty
`DEFAULT_USER_JWT` (both are environment-configurable settings). -/
def c3Cfg : ForwarderSettings :=
  { require_user_jwt := true, default_user_jwt := "",
    rotation_strategy := "best", retry_count := 1,
    fallback_strategy := "health_score" }

def c3State : CacheState :=
  refresh demoCompile initCache (.ok [⟨1, "^.*facebook\\.com.*$"⟩]) 50

/-- C3 (counterexample): a request without an Authorization header, under
a configuration that requires a jwt and provides no default, targets the
blacklisted url `https://facebook.com/x` — the url does match the
loaded pattern — yet the orchestrator answers 401, not 403: the auth
gate runs before the blacklist gate.  (No proxy-issuing call happens
either way.) -/
theorem blacklisted_unauthorized_request_gets_401 :
    (is_blacklisted c3State "https://facebook.com/x").1 = true ∧
      handleRequest c3Cfg none "https://facebook.com/x" c3State
          (fun _ => .noProxy) .noProxy = (401, []) ∧
      (handleRequest c3Cfg none "https://facebook.com/x" c3State
          (fun _ => .noProxy) .noProxy).1 ≠ 403 :=
  ⟨by decide, by decide, by decide⟩

/-- C3 (amended): every request whose target url matches the loaded
blacklist snapshot triggers zero proxy-issuing calls, and when the
request also passes the auth gate the response status is 403 with the
rejection happening before any selector call. -/
theorem blacklist_match_rejected_before_selector (cfg : ForwarderSettings)
    (authHeader : Option String) (url : String) (st : CacheState)
    (primary : Nat → AttemptResult) (fb : AttemptResult)
    (hbl : (is_blacklisted st url).1 = true) :
    (handleRequest cfg authHeader url st primary fb).2 = [] ∧
      (¬(effective_user_jwt cfg authHeader = "" ∧ cfg.require_user_jwt = true) →
        handleRequest cfg authHeader url st primary fb = (403, [])) := by
  rw [handleRequest.eq_def]
  by_cases hauth : effective_user_jwt cfg authHeader = "" ∧ cfg.require_user_jwt = true
  · rw [if_pos hauth]
    exact ⟨rfl, fun hc => absurd hauth hc⟩
  · rw [if_neg hauth]
    simp only [hbl, if_true]
    exact ⟨trivial, fun _ => trivial⟩

theorem blacklist_match_rejected_before_selector_witness :
    (is_blacklisted c3State "https://facebook.com/x").1 = true ∧
      ((handleRequest cfgDemo none "https://facebook.com/x" c3State
          primaryDemo .noProxy).2 = [] ∧
        (¬(effective_user_jwt cfgDemo none = "" ∧ cfgDemo.require_user_jwt = true) →
          handleRequest cfgDemo none "https://facebook.com/x" c3State
            primaryDemo .noProxy = (403, []))) :=
  ⟨by decide,
    blacklist_match_rejected_before_selector cfgDemo none "https://facebook.com/x"
      c3State primaryDemo .noProxy (by decide)⟩

end ProxyManager
